import Mathlib

/-!
Verification development for the coal-vs-electricity dashboard
(`src/streamlit_app.py`).  The core subsystem — filtering, deduplication,
axis-range computation, color assignment, cumulative-history frame
construction (`build_figure`) and GIF export (`figure_to_gif`) — is embedded
shallowly: a pandas DataFrame of observations becomes a `List Row` in
original row order, floats become `ℚ`, plotly/matplotlib scenes become
explicit records of the drawn content.
-/

/-- One observation row of the cleaned dataset: country name, year,
`Coal_Percentage_Value` (x axis) and `Electricity_Consumption_Value`
(y axis). -/
structure Row where
  country : String
  year : Int
  coal : ℚ
  elec : ℚ
deriving DecidableEq, Repr, Inhabited

/-- Code-point lexicographic comparison of character lists, structurally
recursive so that the kernel can evaluate it.  This is the order Python
uses to compare strings (and hence the order of `sorted` on country
names). -/
def charListLt : List Char → List Char → Bool
  | [], [] => false
  | [], _ :: _ => true
  | _ :: _, [] => false
  | a :: as, b :: bs =>
    if a.toNat < b.toNat then true
    else if b.toNat < a.toNat then false
    else charListLt as bs

/-- Python string strict comparison `a < b`. -/
def pyStrLt (a b : String) : Bool := charListLt a.data b.data

/-- Python string comparison `a <= b`, as a proposition. -/
def pyStrLe (a b : String) : Prop := pyStrLt b a = false

instance : DecidableRel pyStrLe := fun a b =>
  inferInstanceAs (Decidable (pyStrLt b a = false))

/-- Python `sorted` on a list of strings. -/
def sortStrings (l : List String) : List String := l.insertionSort pyStrLe

/-- Python `sorted` on a list of integers (the year column). -/
def sortInts (l : List Int) : List Int :=
  l.insertionSort (fun a b => a ≤ b)

/-- The key order used by `df_filtered.sort_values(by=["Country Name", "Year"])`:
lexicographic on (country, year).  pandas `sort_values` on several columns
is a stable (lexsort-based) sort, which `List.insertionSort` models. -/
def rowLE (a b : Row) : Prop :=
  pyStrLt a.country b.country = true ∨ (a.country = b.country ∧ a.year ≤ b.year)

instance : DecidableRel rowLE := fun a b =>
  inferInstanceAs (Decidable (_ ∨ _))

/-- Model of `df_filtered.sort_values(by=["Country Name", "Year"])`. -/
def sort_values (t : List Row) : List Row := t.insertionSort rowLE

/-- Equality of the `drop_duplicates` subset columns `["Country Name", "Year"]`. -/
def keyEq (a b : Row) : Bool := a.country == b.country && a.year == b.year

/-- Model of `.drop_duplicates(subset=["Country Name", "Year"], keep="last")`: a row is
kept exactly when no later row carries the same (country, year) key. -/
def drop_duplicates_keep_last : List Row → List Row
  | [] => []
  | r :: rs =>
    if rs.any (fun s => keyEq r s) then drop_duplicates_keep_last rs
    else r :: drop_duplicates_keep_last rs

/-- Lines 61–62: `if selected_countries: df_filtered =
df_filtered[df_filtered["Country Name"].isin(selected_countries)]`
(an empty Python list is falsy, so an empty selection keeps every row). -/
def filterSelected (selected_countries : List String) (t : List Row) : List Row :=
  if selected_countries.isEmpty then t
  else t.filter (fun r => selected_countries.contains r.country)

/-- Line 64: `sorted(df_filtered["Country Name"].unique())`. -/
def uniqueCountries (t : List Row) : List String :=
  sortStrings (t.map Row.country).dedup

/-- Lines 74–77: stable sort by (country, year), then keep-last dedup. -/
def dedupFiltered (t : List Row) : List Row :=
  drop_duplicates_keep_last (sort_values t)

/-- pandas `Series.min()` over a column of the table (callers guard against
the empty table, where pandas would return NaN; the `0` default is never
reached on the guarded paths). -/
def seriesMin (f : Row → ℚ) : List Row → ℚ
  | [] => 0
  | r :: rs => rs.foldl (fun m s => min m (f s)) (f r)

/-- pandas `Series.max()` over a column of the table. -/
def seriesMax (f : Row → ℚ) : List Row → ℚ
  | [] => 0
  | r :: rs => rs.foldl (fun m s => max m (f s)) (f r)

/-- Line 42: `COLOR_PALETTE = px_colors.qualitative.Safe`, the fixed
11-color CARTO "Safe" palette shipped with plotly. -/
def COLOR_PALETTE : List String :=
  ["rgb(136,204,238)", "rgb(204,102,119)", "rgb(221,204,119)", "rgb(17,119,51)",
   "rgb(51,34,136)", "rgb(170,68,153)", "rgb(68,170,153)", "rgb(153,153,51)",
   "rgb(136,34,85)", "rgb(102,17,0)", "rgb(136,136,136)"]

/-- One step of `itertools.cycle(COLOR_PALETTE)`: yield the element at the
cursor and advance the cursor, wrapping at the end of the palette. -/
def cycleNext (i : Nat) : String × Nat :=
  (COLOR_PALETTE.getD i "", if i + 1 = COLOR_PALETTE.length then 0 else i + 1)

/-- Lines 84–87: walk the country list in order, drawing the next color from
the palette cycle whose cursor starts at `i`. -/
def buildColorMap : List String → Nat → List (String × String)
  | [], _ => []
  | c :: cs, i =>
    let p := cycleNext i
    (c, p.1) :: buildColorMap cs p.2

/-- Line 89: `sorted(df_filtered["Year"].unique())`. -/
def yearsOf (t : List Row) : List Int :=
  sortInts (t.map Row.year).dedup

/-- Lines 90–92: `country_data_map[country] = df_filtered[df_filtered["Country Name"] == country]`. -/
def countryDataMap (t : List Row) (cs : List String) : List (String × List Row) :=
  cs.map (fun c => (c, t.filter (fun r => r.country == c)))

/-- The per-country content of one animation frame: the cumulative history
trace (`go.Scatter` with `mode="lines"`) together with the current-point
marker (`go.Scatter` with `mode="markers"` at `history.iloc[-1]`), both
drawn in `color_map[country]`. -/
structure CountryTrace where
  country : String
  color : String
  history : List Row
  current : Row
deriving DecidableEq, Repr

/-- Lines 96–132: traces of the frame for one year.  Countries are visited
in `unique_countries` order; a country whose history up to the year is
empty is skipped (`continue`); otherwise the history line plus the
`history.iloc[-1]` marker is emitted. -/
def frameTraces (country_data_map : List (String × List Row))
    (color_map : List (String × String)) (unique_countries : List String)
    (year : Int) : List CountryTrace :=
  unique_countries.filterMap (fun country =>
    let country_data := (country_data_map.lookup country).getD []
    let history := country_data.filter (fun r => decide (r.year ≤ year))
    match history.getLast? with
    | none => none
    | some current_point =>
      some { country := country, color := (color_map.lookup country).getD "",
             history := history, current := current_point })

/-- The parts of the plotly `go.Figure` that the specification talks about:
title text, initially visible data, the per-year frame sequence, fixed axis
ranges, the play/pause buttons (`updatemenus`) and the year slider. -/
structure Figure where
  title : String
  data : List CountryTrace
  frames : List (Int × List CountryTrace)
  xrange : Option (ℚ × ℚ)
  yrange : Option (ℚ × ℚ)
  hasPlayControls : Bool
  sliderYears : List Int
deriving DecidableEq, Repr

/-- Lines 45–52: the bundle handed from `build_figure` to `figure_to_gif`. -/
structure AnimationContext where
  years : List Int
  unique_countries : List String
  country_data_map : List (String × List Row)
  color_map : List (String × String)
  x_range : ℚ × ℚ
  y_range : ℚ × ℚ
deriving DecidableEq, Repr

/-- Lines 55–219: `build_figure(df_plot, selected_countries)`. -/
def build_figure (df_plot : List Row) (selected_countries : List String) :
    Figure × Option AnimationContext :=
  let df_filtered := filterSelected selected_countries df_plot
  let unique_countries := uniqueCountries df_filtered
  if unique_countries.isEmpty then
    ({ title := "No data available for the selected filters", data := [],
       frames := [], xrange := none, yrange := none,
       hasPlayControls := false, sliderYears := [] }, none)
  else
    let d := dedupFiltered df_filtered
    let x_min := seriesMin Row.coal d * 0.95
    let x_max := seriesMax Row.coal d * 1.05
    let y_min := seriesMin Row.elec d * 0.95
    let y_max := seriesMax Row.elec d * 1.05
    let color_map := buildColorMap unique_countries 0
    let years := yearsOf d
    let country_data_map := countryDataMap d unique_countries
    let frames := years.map (fun y =>
      (y, frameTraces country_data_map color_map unique_countries y))
    let initial_data := match frames with
      | [] => []
      | f :: _ => f.2
    ({ title := "Electricity Consumption vs. Coal Percentage (" ++
         String.intercalate ", "
           (if selected_countries.isEmpty then unique_countries
            else selected_countries) ++ ")",
       data := initial_data, frames := frames,
       xrange := some (x_min, x_max), yrange := some (y_min, y_max),
       hasPlayControls := true, sliderYears := years },
     some { years := years, unique_countries := unique_countries,
            country_data_map := country_data_map, color_map := color_map,
            x_range := (x_min, x_max), y_range := (y_min, y_max) })

/-- Model of `dict(zip(labels, handles)).keys()`, the legend deduplication of
(lines 259–261): keys in first-insertion order, one entry per label. -/
def firstKeys : List String → List String
  | [] => []
  | x :: xs => x :: (firstKeys xs).filter (fun y => decide (y ≠ x))

/-- One rendered matplotlib still of the GIF (lines 231–275): fixed axis
limits from the context, the per-country history line and last-point
marker, and the deduplicated legend labels. -/
structure Still where
  year : Int
  xlim : ℚ × ℚ
  ylim : ℚ × ℚ
  curves : List CountryTrace
  legend : List String
deriving DecidableEq, Repr

/-- The body of the `for year in context.years` render loop for one year.
Lines 238–257 repeat, verbatim, the per-country filter / skip-if-empty /
line-plus-last-point construction of the interactive frame loop, so the
curves of a still are the `frameTraces` of the context for that year. -/
def stillFor (context : AnimationContext) (year : Int) : Still :=
  let curves := frameTraces context.country_data_map context.color_map
    context.unique_countries year
  { year := year, xlim := context.x_range, ylim := context.y_range,
    curves := curves, legend := firstKeys (curves.map CountryTrace.country) }

/-- The animated GIF byte stream, abstracted to its decodable content:
the still frames in render order, the fixed 250 ms inter-frame duration
and the infinite loop count (`loop=0`). -/
structure Gif where
  stills : List Still
  duration : Nat
  loopCount : Nat
deriving DecidableEq, Repr

/-- Lines 222–287: `figure_to_gif(context)`.  An empty timeline raises
`RuntimeError("No timeline data available for export.")`; otherwise one
still per year is rendered and the stills are encoded with
`duration=250, loop=0`. -/
def figure_to_gif (context : AnimationContext) : Except String Gif :=
  if context.years.isEmpty then
    Except.error "No timeline data available for export."
  else
    Except.ok { stills := context.years.map (stillFor context),
                duration := 250, loopCount := 0 }

/-- What the `main` driver shows for the export affordance (lines 319–338). -/
inductive ExportOutcome where
  | noDataInfo : ExportOutcome
  | exportError : String → ExportOutcome
  | downloadButton : Gif → ExportOutcome
deriving DecidableEq, Repr

/-- Lines 322–338: the try/except of `main` around `figure_to_gif`: a
`RuntimeError` is caught and shown as an error message (the download
button is suppressed); on success the download button is offered. -/
def handleExport (context : AnimationContext) : ExportOutcome :=
  match figure_to_gif context with
  | Except.error e => ExportOutcome.exportError e
  | Except.ok g => ExportOutcome.downloadButton g

/-- Lines 314–338 of `main`: build the figure, then either show the
"no data" info message (context is `None`) or attempt the export. -/
def mainExportOutcome (df_plot : List Row) (selection : List String) :
    ExportOutcome :=
  match (build_figure df_plot selection).2 with
  | none => ExportOutcome.noDataInfo
  | some context => handleExport context

/-- The three-row table of concrete scenario 1 in the specification. -/
def scenarioRows : List Row :=
  [{ country := "A", year := 2000, coal := 10, elec := 100 },
   { country := "A", year := 2001, coal := 20, elec := 200 },
   { country := "B", year := 2000, coal := 5, elec := 50 }]

/-- A placeholder context used only to give `Option.getD` a default. -/
def emptyContext : AnimationContext :=
  { years := [], unique_countries := [], country_data_map := [],
    color_map := [], x_range := (0, 0), y_range := (0, 0) }

/-- The (country, year, x, y) history of one country drawn up to one year:
the rows of the deduplicated table for that country with year at most the
frame year, in table order. -/
def historyUpTo (d : List Row) (c : String) (y : Int) : List Row :=
  (d.filter (fun r => r.country == c)).filter (fun r => decide (r.year ≤ y))

/-- Two rows sharing the (country, year) key of the same duplicate pair. -/
def dupRows : List Row :=
  [{ country := "A", year := 2000, coal := 1, elec := 1 },
   { country := "A", year := 2000, coal := 2, elec := 2 }]

/-- The (country, year) key probed in the C2 witness. -/
def dupKey : Row := { country := "A", year := 2000, coal := 0, elec := 0 }

/-- A one-row table whose coal percentage is negative. -/
def negRowTable : List Row :=
  [{ country := "A", year := 2000, coal := -1, elec := 100 }]

/-- A small three-year export context used as a concrete witness input. -/
def exportCtx3 : AnimationContext :=
  { years := [2000, 2001, 2002], unique_countries := ["A"],
    country_data_map :=
      [("A", [{ country := "A", year := 2000, coal := 1, elec := 2 }])],
    color_map := [("A", "rgb(136,204,238)")],
    x_range := (0, 1), y_range := (0, 1) }

/-- The trace contributed by country "A" to the scenario frame of 2000. -/
def scenarioTrace : CountryTrace :=
  { country := "A", color := "rgb(136,204,238)",
    history := [{ country := "A", year := 2000, coal := 10, elec := 100 }],
    current := { country := "A", year := 2000, coal := 10, elec := 100 } }

/-! ### The code-point string order is a total preorder -/

theorem charListLt_irrefl : ∀ as, charListLt as as = false
  | [] => rfl
  | a :: as => by simp [charListLt, charListLt_irrefl as]

theorem charListLt_asymm :
    ∀ as bs, charListLt as bs = true → charListLt bs as = false
  | [], [], h => by simp [charListLt] at h
  | [], _ :: _, _ => rfl
  | _ :: _, [], h => by simp [charListLt] at h
  | a :: as, b :: bs, h => by
    simp only [charListLt] at h ⊢
    rcases Nat.lt_trichotomy a.toNat b.toNat with h1 | h1 | h1
    · simp [Nat.not_lt.mpr (Nat.le_of_lt h1), h1]
    · simp only [h1, lt_irrefl, if_false] at h ⊢
      exact charListLt_asymm as bs h
    · simp [h1, Nat.not_lt.mpr (Nat.le_of_lt h1)] at h

theorem charListLt_trans :
    ∀ as bs cs, charListLt as bs = true → charListLt bs cs = true →
      charListLt as cs = true
  | [], _ :: _, _ :: _, _, _ => rfl
  | [], [], _, h, _ => by simp [charListLt] at h
  | [], _ :: _, [], _, h2 => by simp [charListLt] at h2
  | _ :: _, [], _, h, _ => by simp [charListLt] at h
  | _ :: _, _ :: _, [], _, h2 => by simp [charListLt] at h2
  | a :: as, b :: bs, c :: cs, h1, h2 => by
    simp only [charListLt] at h1 h2 ⊢
    by_cases hab : a.toNat < b.toNat
    · by_cases hbc : b.toNat < c.toNat
      · simp [Nat.lt_trans hab hbc]
      · by_cases hcb : c.toNat < b.toNat
        · simp [hbc, hcb] at h2
        · have : b.toNat = c.toNat := by omega
          simp [this ▸ hab]
    · by_cases hba : b.toNat < a.toNat
      · simp [hab, hba] at h1
      · have hab' : a.toNat = b.toNat := by omega
        by_cases hbc : b.toNat < c.toNat
        · simp [hab' ▸ hbc]
        · by_cases hcb : c.toNat < b.toNat
          · simp [hbc, hcb] at h2
          · have hbc' : b.toNat = c.toNat := by omega
            simp only [hab, hba, if_false] at h1
            simp only [hbc, hcb, if_false] at h2
            have hac : ¬ a.toNat < c.toNat := by omega
            have hca : ¬ c.toNat < a.toNat := by omega
            simp only [hac, hca, if_false]
            exact charListLt_trans as bs cs h1 h2

theorem charListLt_connex :
    ∀ as bs, charListLt as bs = false → charListLt bs as = false → as = bs
  | [], [], _, _ => rfl
  | [], _ :: _, h, _ => by simp [charListLt] at h
  | _ :: _, [], _, h2 => by simp [charListLt] at h2
  | a :: as, b :: bs, h1, h2 => by
    simp only [charListLt] at h1 h2
    by_cases hab : a.toNat < b.toNat
    · simp [hab] at h1
    · by_cases hba : b.toNat < a.toNat
      · simp [hab, hba] at h1
        simp [hba] at h2
      · have hn : a.toNat = b.toNat := by omega
        have hch : a = b := Char.ext (UInt32.ext hn)
        simp only [hab, hba, if_false] at h1 h2
        rw [hch, charListLt_connex as bs h1 h2]

theorem pyStr_eq_of_not_lt {a b : String} (h1 : pyStrLt a b = false)
    (h2 : pyStrLt b a = false) : a = b := by
  cases a with
  | mk da =>
    cases b with
    | mk db => exact congrArg String.mk (charListLt_connex da db h1 h2)

instance : IsTotal String pyStrLe :=
  ⟨fun a b => by
    by_cases h : charListLt b.data a.data = true
    · exact Or.inr (charListLt_asymm _ _ h)
    · exact Or.inl (Bool.eq_false_iff.mpr h)⟩

instance : IsTrans String pyStrLe :=
  ⟨fun a b c hab hbc => by
    unfold pyStrLe pyStrLt at hab hbc ⊢
    by_cases hca : charListLt c.data a.data = true
    · by_cases hab' : charListLt a.data b.data = true
      · exact absurd (charListLt_trans _ _ _ hca hab') (Bool.eq_false_iff.mp hbc)
      · have hd : a.data = b.data :=
          charListLt_connex _ _ (Bool.eq_false_iff.mpr hab') hab
        rw [hd]
        exact hbc
    · exact Bool.eq_false_iff.mpr hca⟩

instance : IsTotal Row rowLE :=
  ⟨fun a b => by
    unfold rowLE
    by_cases h1 : pyStrLt a.country b.country = true
    · exact Or.inl (Or.inl h1)
    · by_cases h2 : pyStrLt b.country a.country = true
      · exact Or.inr (Or.inl h2)
      · have hc : a.country = b.country :=
          pyStr_eq_of_not_lt (Bool.eq_false_iff.mpr h1) (Bool.eq_false_iff.mpr h2)
        rcases Int.le_total a.year b.year with hy | hy
        · exact Or.inl (Or.inr ⟨hc, hy⟩)
        · exact Or.inr (Or.inr ⟨hc.symm, hy⟩)⟩

instance : IsTrans Row rowLE :=
  ⟨fun a b c hab hbc => by
    unfold rowLE at hab hbc ⊢
    rcases hab with hab | ⟨hab, hya⟩
    · rcases hbc with hbc | ⟨hbc, _⟩
      · exact Or.inl (charListLt_trans _ _ _ hab hbc)
      · exact Or.inl (hbc ▸ hab)
    · rcases hbc with hbc | ⟨hbc, hyb⟩
      · exact Or.inl (hab ▸ hbc)
      · exact Or.inr ⟨hab.trans hbc, le_trans hya hyb⟩⟩

/-! ### Sortedness and deduplication facts -/

theorem sorted_sort_values (t : List Row) : List.Sorted rowLE (sort_values t) :=
  List.sorted_insertionSort rowLE t

theorem perm_sort_values (t : List Row) : (sort_values t).Perm t :=
  List.perm_insertionSort rowLE t

theorem keyEq_iff {a b : Row} :
    keyEq a b = true ↔ a.country = b.country ∧ a.year = b.year := by
  simp [keyEq]

theorem keyEq_symm {a b : Row} (h : keyEq a b = true) : keyEq b a = true := by
  rw [keyEq_iff] at h ⊢
  exact ⟨h.1.symm, h.2.symm⟩

theorem keyEq_trans {a b c : Row} (h1 : keyEq a b = true)
    (h2 : keyEq b c = true) : keyEq a c = true := by
  rw [keyEq_iff] at h1 h2 ⊢
  exact ⟨h1.1.trans h2.1, h1.2.trans h2.2⟩

theorem drop_duplicates_sublist :
    ∀ l : List Row, List.Sublist (drop_duplicates_keep_last l) l
  | [] => List.Sublist.refl []
  | r :: rs => by
    unfold drop_duplicates_keep_last
    by_cases h : rs.any (fun s => keyEq r s) = true
    · simp only [h, if_true]
      exact (drop_duplicates_sublist rs).cons r
    · simp only [h, if_false]
      exact (drop_duplicates_sublist rs).cons₂ r

theorem drop_duplicates_pairwise_key :
    ∀ l : List Row,
      (drop_duplicates_keep_last l).Pairwise (fun a b => keyEq a b = false)
  | [] => List.Pairwise.nil
  | r :: rs => by
    unfold drop_duplicates_keep_last
    by_cases h : rs.any (fun s => keyEq r s) = true
    · simp only [h, if_true]
      exact drop_duplicates_pairwise_key rs
    · simp only [h, if_false]
      refine List.Pairwise.cons ?_ (drop_duplicates_pairwise_key rs)
      intro s hs
      have hs' : s ∈ rs := (drop_duplicates_sublist rs).subset hs
      have := List.any_eq_true.not.mp (Bool.eq_false_iff.mp (Bool.not_eq_true _ ▸ h))
      by_contra hks
      exact this ⟨s, hs', Bool.not_eq_false _ ▸ hks⟩

theorem mem_drop_duplicates_of_mem :
    ∀ l : List Row, ∀ r ∈ l,
      ∃ s ∈ drop_duplicates_keep_last l, keyEq r s = true
  | [], r, hr => absurd hr (List.not_mem_nil r)
  | q :: rs, r, hr => by
    unfold drop_duplicates_keep_last
    by_cases h : rs.any (fun s => keyEq q s) = true
    · simp only [h, if_true]
      rcases List.mem_cons.mp hr with hrq | hrs
      · obtain ⟨u, hu, hku⟩ := List.any_eq_true.mp h
        obtain ⟨s, hs, hks⟩ := mem_drop_duplicates_of_mem rs u hu
        exact ⟨s, hs, keyEq_trans (hrq ▸ hku) hks⟩
      · exact mem_drop_duplicates_of_mem rs r hrs
    · simp only [h, if_false]
      rcases List.mem_cons.mp hr with hrq | hrs
      · refine ⟨q, List.mem_cons_self q _, ?_⟩
        rw [hrq]
        exact keyEq_iff.mpr ⟨rfl, rfl⟩
      · obtain ⟨s, hs, hks⟩ := mem_drop_duplicates_of_mem rs r hrs
        exact ⟨s, List.mem_cons_of_mem q hs, hks⟩

theorem drop_duplicates_ne_nil {l : List Row} (h : l ≠ []) :
    drop_duplicates_keep_last l ≠ [] := by
  obtain ⟨r, hr⟩ := List.exists_mem_of_ne_nil l h
  obtain ⟨s, hs, _⟩ := mem_drop_duplicates_of_mem l r hr
  exact List.ne_nil_of_mem hs

theorem dedupFiltered_pairwise (t : List Row) :
    (dedupFiltered t).Pairwise (fun a b => rowLE a b ∧ keyEq a b = false) :=
  List.Pairwise.and
    (List.Pairwise.sublist (drop_duplicates_sublist (sort_values t))
      (sorted_sort_values t))
    (drop_duplicates_pairwise_key (sort_values t))

theorem charListLt_self_false (s : String) : pyStrLt s s = false :=
  charListLt_irrefl s.data

/-- Along the deduplicated, (country, year)-sorted table, rows of one
country appear with strictly increasing years. -/
theorem dedupFiltered_year_strict (t : List Row) :
    (dedupFiltered t).Pairwise
      (fun a b => a.country = b.country → a.year < b.year) := by
  refine (dedupFiltered_pairwise t).imp ?_
  rintro a b ⟨hle, hk⟩ hc
  rcases hle with hlt | ⟨_, hy⟩
  · rw [hc, charListLt_self_false] at hlt
    cases hlt
  · rcases lt_or_eq_of_le hy with hlt | heq
    · exact hlt
    · have hkt : keyEq a b = true := keyEq_iff.mpr ⟨hc, heq⟩
      rw [hkt] at hk
      cases hk

/-- The last element of a year-strictly-increasing list bounds every year. -/
theorem getLast?_year_max :
    ∀ l : List Row, l.Pairwise (fun a b => a.year < b.year) →
      ∀ m, l.getLast? = some m → ∀ r ∈ l, r.year ≤ m.year
  | [], _, m, hm, r, hr => absurd hr (List.not_mem_nil r)
  | [a], _, m, hm, r, hr => by
    simp only [List.getLast?_singleton, Option.some.injEq] at hm
    rcases List.mem_singleton.mp hr with rfl
    rw [hm]
  | a :: b :: l, hp, m, hm, r, hr => by
    rw [List.getLast?_cons_cons] at hm
    rcases List.mem_cons.mp hr with hra | hrbl
    · have hm' : m ∈ b :: l := List.mem_of_mem_getLast? hm
      have := (List.pairwise_cons.mp hp).1 m hm'
      exact hra ▸ le_of_lt this
    · exact getLast?_year_max (b :: l) (List.pairwise_cons.mp hp).2 m hm r hrbl

/-- Looking up a key built by mapping a function over the key list. -/
theorem lookup_map_pair {β : Type} :
    ∀ (cs : List String) (f : String → β) (c : String), c ∈ cs →
      (cs.map (fun x => (x, f x))).lookup c = some (f c)
  | [], _, c, hc => absurd hc (List.not_mem_nil c)
  | c' :: cs, f, c, hc => by
    simp only [List.map_cons, List.lookup_cons]
    by_cases h : c = c'
    · simp [h]
    · have hbeq : (c == c') = false := by simpa using h
      simp only [hbeq]
      exact lookup_map_pair cs f c ((List.mem_cons.mp hc).resolve_left h)

/-! ### Stability: filtering one (country, year) key class commutes with
the sort, so keep-last dedup keeps the last row in original order -/

theorem filter_orderedInsert_neg (p : Row → Bool) (a : Row) (ha : p a = false) :
    ∀ l : List Row, (List.orderedInsert rowLE a l).filter p = l.filter p
  | [] => by simp [List.orderedInsert, List.filter_cons, ha]
  | b :: l => by
    simp only [List.orderedInsert]
    by_cases h : rowLE a b
    · simp [h, List.filter_cons, ha]
    · simp only [h, if_false, List.filter_cons]
      rw [filter_orderedInsert_neg p a ha l]

theorem filter_orderedInsert_pos (p : Row → Bool) (a : Row) (ha : p a = true) :
    ∀ l : List Row, (∀ b ∈ l, p b = true → rowLE a b) →
      (List.orderedInsert rowLE a l).filter p = a :: l.filter p
  | [], _ => by simp [List.orderedInsert, List.filter_cons, ha]
  | b :: l, hall => by
    simp only [List.orderedInsert]
    by_cases h : rowLE a b
    · simp [h, List.filter_cons, ha]
    · have hb : p b = false := by
        by_contra hb
        exact h (hall b (List.mem_cons_self b l) (Bool.not_eq_false _ ▸ hb))
      simp only [h, if_false, List.filter_cons, hb, Bool.false_eq_true]
      exact filter_orderedInsert_pos p a ha l fun c hc => hall c (List.mem_cons_of_mem b hc)

/-- Rows carrying the key of `k` keep their original relative order through
`sort_values` (pandas multi-column sorting is stable). -/
theorem filter_key_sort_values (k : Row) :
    ∀ t : List Row,
      (sort_values t).filter (fun s => keyEq s k) = t.filter (fun s => keyEq s k)
  | [] => rfl
  | r :: t => by
    show (List.orderedInsert rowLE r (sort_values t)).filter _ = _
    by_cases hr : keyEq r k = true
    · have hall : ∀ b ∈ sort_values t, keyEq b k = true → rowLE r b := by
        intro b _ hb
        have h1 := keyEq_iff.mp hr
        have h2 := keyEq_iff.mp hb
        exact Or.inr ⟨h1.1.trans h2.1.symm, le_of_eq (h1.2.trans h2.2.symm)⟩
      rw [filter_orderedInsert_pos (fun s => keyEq s k) r hr (sort_values t) hall,
        filter_key_sort_values k t]
      simp [List.filter_cons, hr]
    · have hr' : keyEq r k = false := Bool.not_eq_true _ ▸ hr
      rw [filter_orderedInsert_neg (fun s => keyEq s k) r hr' (sort_values t),
        filter_key_sort_values k t]
      simp [List.filter_cons, hr']

/-- Keep-last dedup restricted to one key class keeps exactly the last
matching row. -/
theorem filter_key_drop_duplicates (k : Row) :
    ∀ l : List Row,
      (drop_duplicates_keep_last l).filter (fun s => keyEq s k) =
        ((l.filter (fun s => keyEq s k)).getLast?).toList
  | [] => rfl
  | r :: rs => by
    unfold drop_duplicates_keep_last
    by_cases hae : rs.any (fun s => keyEq r s) = true
    · simp only [hae, if_true]
      by_cases hr : keyEq r k = true
      · obtain ⟨u, hu, hku⟩ := List.any_eq_true.mp hae
        have huk : keyEq u k = true := keyEq_trans (keyEq_symm hku) hr
        have hne : rs.filter (fun s => keyEq s k) ≠ [] :=
          List.ne_nil_of_mem (List.mem_filter.mpr ⟨hu, huk⟩)
        rw [filter_key_drop_duplicates k rs]
        simp only [List.filter_cons, hr, if_true]
        rcases hl : rs.filter (fun s => keyEq s k) with _ | ⟨x, xs⟩
        · exact absurd hl hne
        · rw [List.getLast?_cons_cons]
      · have hr' : keyEq r k = false := Bool.not_eq_true _ ▸ hr
        rw [filter_key_drop_duplicates k rs]
        simp only [List.filter_cons, hr', Bool.false_eq_true, if_false]
    · rw [if_neg hae]
      by_cases hr : keyEq r k = true
      · have hfil : rs.filter (fun s => keyEq s k) = [] := by
          rw [List.filter_eq_nil]
          intro s hs
          by_contra hsk
          refine List.any_eq_true.not.mp hae ⟨s, hs, ?_⟩
          exact keyEq_trans hr (keyEq_symm (Bool.not_eq_false _ ▸ hsk))
        simp only [List.filter_cons, hr, if_true, hfil,
          filter_key_drop_duplicates k rs]
        rfl
      · have hr' : keyEq r k = false := Bool.not_eq_true _ ▸ hr
        simp only [List.filter_cons, hr', Bool.false_eq_true, if_false]
        exact filter_key_drop_duplicates k rs

/-! ### Series min/max bounds -/

theorem foldl_min_le_init (f : Row → ℚ) :
    ∀ (l : List Row) (a : ℚ), l.foldl (fun m s => min m (f s)) a ≤ a
  | [], a => le_refl a
  | r :: l, a =>
    le_trans (foldl_min_le_init f l (min a (f r))) (min_le_left a (f r))

theorem foldl_max_ge_init (f : Row → ℚ) :
    ∀ (l : List Row) (a : ℚ), a ≤ l.foldl (fun m s => max m (f s)) a
  | [], a => le_refl a
  | r :: l, a =>
    le_trans (le_max_left a (f r)) (foldl_max_ge_init f l (max a (f r)))

theorem foldl_min_nonneg (f : Row → ℚ) :
    ∀ (l : List Row) (a : ℚ), 0 ≤ a → (∀ r ∈ l, 0 ≤ f r) →
      0 ≤ l.foldl (fun m s => min m (f s)) a
  | [], a, ha, _ => ha
  | r :: l, a, ha, hl =>
    foldl_min_nonneg f l (min a (f r))
      (le_min ha (hl r (List.mem_cons_self r l)))
      (fun s hs => hl s (List.mem_cons_of_mem r hs))

theorem seriesMin_nonneg {f : Row → ℚ} {t : List Row}
    (h : ∀ r ∈ t, 0 ≤ f r) : 0 ≤ seriesMin f t := by
  cases t with
  | nil => exact le_refl 0
  | cons r l =>
    exact foldl_min_nonneg f l (f r) (h r (List.mem_cons_self r l))
      (fun s hs => h s (List.mem_cons_of_mem r hs))

theorem seriesMax_nonneg {f : Row → ℚ} {t : List Row}
    (h : ∀ r ∈ t, 0 ≤ f r) : 0 ≤ seriesMax f t := by
  cases t with
  | nil => exact le_refl 0
  | cons r l =>
    exact le_trans (h r (List.mem_cons_self r l)) (foldl_max_ge_init f l (f r))

/-! ### Palette cycling -/

theorem buildColorMap_lookup :
    ∀ (cs : List String) (j i : Nat) (h : i < cs.length), cs.Nodup →
      j < COLOR_PALETTE.length →
      (buildColorMap cs j).lookup (cs.get ⟨i, h⟩) =
        some (COLOR_PALETTE.getD ((j + i) % COLOR_PALETTE.length) "")
  | [], _, i, h, _, _ => absurd h (by simp)
  | c :: cs, j, 0, h, _, hj => by
    simp only [buildColorMap, cycleNext, List.get, List.lookup_cons, beq_self_eq_true]
    rw [Nat.add_zero, Nat.mod_eq_of_lt hj]
  | c :: cs, j, i + 1, h, hnd, hj => by
    have hm : cs.get ⟨i, Nat.lt_of_succ_lt_succ h⟩ ∈ cs := List.get_mem cs i _
    have hne : (cs.get ⟨i, Nat.lt_of_succ_lt_succ h⟩ == c) = false := by
      have : cs.get ⟨i, Nat.lt_of_succ_lt_succ h⟩ ≠ c := by
        intro heq
        exact (List.nodup_cons.mp hnd).1 (heq ▸ hm)
      simpa using this
    simp only [buildColorMap, cycleNext, List.get, List.lookup_cons, hne]
    by_cases hN : j + 1 = COLOR_PALETTE.length
    · rw [if_pos hN]
      rw [buildColorMap_lookup cs 0 i _ (List.nodup_cons.mp hnd).2
        (by decide), Nat.zero_add]
      have harith : j + (i + 1) = COLOR_PALETTE.length + i := by omega
      rw [harith, Nat.add_mod_left]
    · rw [if_neg hN]
      have hj' : j + 1 < COLOR_PALETTE.length :=
        Nat.lt_of_le_of_ne (Nat.succ_le_of_lt hj) hN
      rw [buildColorMap_lookup cs (j + 1) i _ (List.nodup_cons.mp hnd).2 hj']
      have harith : j + 1 + i = j + (i + 1) := by omega
      rw [harith]

/-! ### Legend deduplication -/

theorem mem_firstKeys : ∀ (l : List String) (a : String),
    a ∈ firstKeys l ↔ a ∈ l
  | [], _ => Iff.rfl
  | x :: xs, a => by
    by_cases hax : a = x
    · simp [firstKeys, hax]
    · simp [firstKeys, List.mem_filter, hax, mem_firstKeys xs a]

theorem firstKeys_nodup : ∀ l : List String, (firstKeys l).Nodup
  | [] => List.Pairwise.nil
  | x :: xs => by
    refine List.Pairwise.cons ?_ (List.Nodup.filter _ (firstKeys_nodup xs))
    intro y hy
    have := (List.mem_filter.mp hy).2
    simp only [decide_eq_true_eq] at this
    exact fun hxy => this hxy.symm

/-! ### Inversion of `build_figure` on the data path -/

theorem build_figure_some (t : List Row) (sel : List String)
    (fig : Figure) (ctx : AnimationContext)
    (hb : build_figure t sel = (fig, some ctx)) :
    (uniqueCountries (filterSelected sel t)).isEmpty = false ∧
    ctx = { years := yearsOf (dedupFiltered (filterSelected sel t)),
            unique_countries := uniqueCountries (filterSelected sel t),
            country_data_map :=
              countryDataMap (dedupFiltered (filterSelected sel t))
                (uniqueCountries (filterSelected sel t)),
            color_map :=
              buildColorMap (uniqueCountries (filterSelected sel t)) 0,
            x_range :=
              (seriesMin Row.coal (dedupFiltered (filterSelected sel t)) * 0.95,
               seriesMax Row.coal (dedupFiltered (filterSelected sel t)) * 1.05),
            y_range :=
              (seriesMin Row.elec (dedupFiltered (filterSelected sel t)) * 0.95,
               seriesMax Row.elec (dedupFiltered (filterSelected sel t)) * 1.05) } ∧
    fig.frames =
      (yearsOf (dedupFiltered (filterSelected sel t))).map (fun y =>
        (y, frameTraces
          (countryDataMap (dedupFiltered (filterSelected sel t))
            (uniqueCountries (filterSelected sel t)))
          (buildColorMap (uniqueCountries (filterSelected sel t)) 0)
          (uniqueCountries (filterSelected sel t)) y)) := by
  cases he : (uniqueCountries (filterSelected sel t)).isEmpty with
  | true =>
    exfalso
    simp only [build_figure] at hb
    rw [if_pos he] at hb
    simp at hb
  | false =>
    simp only [build_figure] at hb
    rw [if_neg (by simp [he])] at hb
    injection hb with hf hc
    injection hc with hc
    refine ⟨rfl, hc.symm, ?_⟩
    rw [← hf]

/-! ### Claim theorems -/

/-- C5: when the selection matches no row of the table, `build_figure`
returns the placeholder figure — only a textual no-data title, no data, no
frames, no play/pause buttons, no slider — together with a `None` animation
context, and `main` then shows the informational message instead of
attempting a GIF export. -/
theorem c5_no_data_placeholder (t : List Row) (sel : List String)
    (h : filterSelected sel t = []) :
    build_figure t sel =
      ({ title := "No data available for the selected filters", data := [],
         frames := [], xrange := none, yrange := none,
         hasPlayControls := false, sliderYears := [] }, none) ∧
    mainExportOutcome t sel = ExportOutcome.noDataInfo := by
  have hb : build_figure t sel =
      ({ title := "No data available for the selected filters", data := [],
         frames := [], xrange := none, yrange := none,
         hasPlayControls := false, sliderYears := [] }, none) := by
    simp only [build_figure, h]
    rfl
  refine ⟨hb, ?_⟩
  unfold mainExportOutcome
  rw [hb]

/-- C5 witness: selecting only the absent country "Z" on the scenario
table yields the placeholder and the disabled export. -/
theorem c5_no_data_placeholder_witness :
    build_figure scenarioRows ["Z"] =
      ({ title := "No data available for the selected filters", data := [],
         frames := [], xrange := none, yrange := none,
         hasPlayControls := false, sliderYears := [] }, none) ∧
    mainExportOutcome scenarioRows ["Z"] = ExportOutcome.noDataInfo :=
  c5_no_data_placeholder scenarioRows ["Z"] (by decide)

/-- C6: on a context with an empty timeline, `figure_to_gif` fails with the
descriptive `RuntimeError` message instead of encoding zero frames, and the
try/except of the caller turns it into an error display (suppressing the
download button) rather than a crash. -/
theorem c6_empty_timeline_error (ctx : AnimationContext)
    (h : ctx.years = []) :
    figure_to_gif ctx = Except.error "No timeline data available for export." ∧
    handleExport ctx =
      ExportOutcome.exportError "No timeline data available for export." := by
  have hg : figure_to_gif ctx =
      Except.error "No timeline data available for export." := by
    unfold figure_to_gif
    rw [h]
    rfl
  refine ⟨hg, ?_⟩
  unfold handleExport
  rw [hg]

/-- C6 witness: the empty context triggers the error branch. -/
theorem c6_empty_timeline_error_witness :
    figure_to_gif emptyContext =
      Except.error "No timeline data available for export." ∧
    handleExport emptyContext =
      ExportOutcome.exportError "No timeline data available for export." :=
  c6_empty_timeline_error emptyContext rfl

/-- C9: an empty country selection builds exactly the same figure and
context as selecting every country present in the table — the empty list
is falsy, so no filter is applied, and the recomputed sorted country list
coincides with the full selection (the title also agrees because
`selected_countries or unique_countries` picks the same list). -/
theorem c9_empty_selection_is_all (t : List Row) :
    build_figure t [] = build_figure t (uniqueCountries t) := by
  have h0 : filterSelected [] t = t := by simp [filterSelected]
  have h1 : filterSelected (uniqueCountries t) t = t := by
    unfold filterSelected
    cases he : (uniqueCountries t).isEmpty with
    | true => rfl
    | false =>
      rw [if_neg Bool.false_ne_true]
      rw [List.filter_eq_self]
      intro r hr
      show List.elem r.country (uniqueCountries t) = true
      refine List.elem_iff.mpr ?_
      unfold uniqueCountries sortStrings
      rw [List.mem_insertionSort, List.mem_dedup]
      exact List.mem_map_of_mem Row.country hr
  simp only [build_figure, h0, h1, List.isEmpty_nil, if_true, ite_self]


/-- C2: after the sort + keep-last dedup of lines 74–77, at most one row per
(country, year) key remains; for a key with two or more occurrences exactly
one row survives, and it is the occurrence that appeared last in the
original row order of the input table (pandas multi-column sorting is
stable, so ties keep their input order and `keep="last"` picks the final
one). -/
theorem c2_dedup_keeps_last (t : List Row) (k : Row)
    (h : 2 ≤ (t.filter (fun s => keyEq s k)).length) :
    (dedupFiltered t).filter (fun s => keyEq s k) =
      ((t.filter (fun s => keyEq s k)).getLast?).toList ∧
    ((dedupFiltered t).filter (fun s => keyEq s k)).length = 1 ∧
    (dedupFiltered t).Pairwise (fun a b => keyEq a b = false) := by
  have he : (dedupFiltered t).filter (fun s => keyEq s k) =
      ((t.filter (fun s => keyEq s k)).getLast?).toList := by
    unfold dedupFiltered
    rw [filter_key_drop_duplicates k (sort_values t), filter_key_sort_values k t]
  refine ⟨he, ?_, drop_duplicates_pairwise_key (sort_values t)⟩
  rw [he]
  have hne : t.filter (fun s => keyEq s k) ≠ [] := by
    intro hnil
    rw [hnil] at h
    simp at h
  obtain ⟨m, hm⟩ :=
    Option.isSome_iff_exists.mp (List.getLast?_isSome.mpr hne)
  rw [hm]
  rfl

/-- C2 witness: on a table with two rows for ("A", 2000) the dedup keeps
exactly the second (last) one. -/
theorem c2_dedup_keeps_last_witness :
    ((dedupFiltered dupRows).filter (fun s => keyEq s dupKey) =
      ((dupRows.filter (fun s => keyEq s dupKey)).getLast?).toList ∧
    ((dedupFiltered dupRows).filter (fun s => keyEq s dupKey)).length = 1 ∧
    (dedupFiltered dupRows).Pairwise (fun a b => keyEq a b = false)) ∧
    dedupFiltered dupRows =
      [{ country := "A", year := 2000, coal := 2, elec := 2 }] :=
  ⟨c2_dedup_keeps_last dupRows dupKey (by decide), by decide⟩

/-- C7: the color assignment walks the lexicographically sorted duplicate-free
country list and gives the i-th country `COLOR_PALETTE[i % 11]` (the
`itertools.cycle` cursor wraps at the palette end); moreover the color map
stored in every context built by `build_figure` is exactly this assignment
applied to the sorted distinct country list of the filtered table, which —
being a pure function of that list — is identical across repeated
invocations. -/
theorem c7_palette_cycling :
    (∀ (cs : List String), cs.Nodup → ∀ (i : Nat) (h : i < cs.length),
      (buildColorMap cs 0).lookup (cs.get ⟨i, h⟩) =
        some (COLOR_PALETTE.getD (i % COLOR_PALETTE.length) "")) ∧
    (∀ (t : List Row) (sel : List String) (fig : Figure)
      (ctx : AnimationContext), build_figure t sel = (fig, some ctx) →
        ctx.color_map =
          buildColorMap (uniqueCountries (filterSelected sel t)) 0 ∧
        (uniqueCountries (filterSelected sel t)).Nodup ∧
        List.Sorted pyStrLe (uniqueCountries (filterSelected sel t))) := by
  constructor
  · intro cs hnd i h
    have := buildColorMap_lookup cs 0 i h hnd (by decide)
    rwa [Nat.zero_add] at this
  · intro t sel fig ctx hb
    obtain ⟨-, hctx, -⟩ := build_figure_some t sel fig ctx hb
    refine ⟨by rw [hctx], ?_, ?_⟩
    · unfold uniqueCountries sortStrings
      exact ((List.perm_insertionSort pyStrLe _).nodup_iff).mpr
        (List.nodup_dedup _)
    · unfold uniqueCountries sortStrings
      exact List.sorted_insertionSort pyStrLe _

/-- C7 witness: with the two-country list of the scenario, the second
country receives the second palette color. -/
theorem c7_palette_cycling_witness :
    (buildColorMap ["A", "B"] 0).lookup "B" = some "rgb(204,102,119)" := by
  have h := c7_palette_cycling.1 ["A", "B"] (by decide) 1 (by decide)
  simpa using h

/-! ### Frame-shape helpers -/

theorem mem_frameTraces_shape {cdm : List (String × List Row)}
    {cmap : List (String × String)} {ucs : List String} {y : Int}
    {tr : CountryTrace} (h : tr ∈ frameTraces cdm cmap ucs y) :
    tr.country ∈ ucs ∧ tr.color = (cmap.lookup tr.country).getD "" ∧
    tr.history =
      ((cdm.lookup tr.country).getD []).filter (fun r => decide (r.year ≤ y)) ∧
    tr.history.getLast? = some tr.current := by
  unfold frameTraces at h
  obtain ⟨c, hc, hg⟩ := List.mem_filterMap.mp h
  dsimp only at hg
  cases hL : (((cdm.lookup c).getD []).filter
      (fun r => decide (r.year ≤ y))).getLast? with
  | none =>
    rw [hL] at hg
    cases hg
  | some cp =>
    rw [hL] at hg
    injection hg with hg
    subst hg
    exact ⟨hc, rfl, rfl, hL⟩

theorem frameTraces_exists {cdm : List (String × List Row)}
    {cmap : List (String × String)} {ucs : List String} {y : Int}
    {c : String} (hc : c ∈ ucs)
    (hne : ((cdm.lookup c).getD []).filter (fun r => decide (r.year ≤ y)) ≠ []) :
    ∃ tr ∈ frameTraces cdm cmap ucs y, tr.country = c := by
  obtain ⟨m, hm⟩ :=
    Option.isSome_iff_exists.mp (List.getLast?_isSome.mpr hne)
  refine ⟨{ country := c, color := (cmap.lookup c).getD "",
            history := ((cdm.lookup c).getD []).filter
              (fun r => decide (r.year ≤ y)),
            current := m }, ?_, rfl⟩
  unfold frameTraces
  refine List.mem_filterMap.mpr ⟨c, hc, ?_⟩
  dsimp only
  rw [hm]

theorem yearsOf_sorted (t : List Row) :
    List.Sorted (fun a b => a < b) (yearsOf t) := by
  have hs : List.Sorted (fun a b => a ≤ b) (sortInts (t.map Row.year).dedup) :=
    List.sorted_insertionSort _ _
  have hnd : (sortInts (t.map Row.year).dedup).Nodup :=
    ((List.perm_insertionSort _ _).nodup_iff).mpr (List.nodup_dedup _)
  exact List.Sorted.lt_of_le hs hnd

theorem figure_to_gif_ok (ctx : AnimationContext) (h : ctx.years ≠ []) :
    figure_to_gif ctx =
      Except.ok { stills := ctx.years.map (stillFor ctx),
                  duration := 250, loopCount := 0 } := by
  have hie : ctx.years.isEmpty = false := by
    cases hys : ctx.years with
    | nil => exact absurd hys h
    | cons y ys => rfl
  unfold figure_to_gif
  rw [hie]
  rfl

theorem historyUpTo_year_pairwise (u : List Row) (c : String) (y : Int) :
    (historyUpTo (dedupFiltered u) c y).Pairwise
      (fun a b => a.year < b.year) := by
  unfold historyUpTo
  refine List.Pairwise.imp_of_mem ?_
    (List.Pairwise.filter _ (List.Pairwise.filter _ (dedupFiltered_year_strict u)))
  intro a b ha hb hab
  have ha' : a.country = c := by
    have := (List.mem_filter.mp (List.mem_filter.mp ha).1).2
    simpa using this
  have hb' : b.country = c := by
    have := (List.mem_filter.mp (List.mem_filter.mp hb).1).2
    simpa using this
  exact hab (ha'.trans hb'.symm)

/-- C8: on any context with a non-empty timeline the exporter renders one
still per year, walking `context.years` in order (ascending for every
context produced by `build_figure`), each still pinned to the axis ranges
of the context, drawing every plotted country in its context color, with the
legend deduplicated to one entry per plotted country, and encodes exactly
the resulting stills with the fixed 250 ms frame duration and infinite
loop (`loop=0`). -/
theorem c8_exporter_renders_stills :
    (∀ ctx : AnimationContext, ctx.years ≠ [] →
      figure_to_gif ctx =
        Except.ok { stills := ctx.years.map (stillFor ctx),
                    duration := 250, loopCount := 0 } ∧
      (ctx.years.map (stillFor ctx)).length = ctx.years.length ∧
      ∀ y ∈ ctx.years,
        (stillFor ctx y).year = y ∧
        (stillFor ctx y).xlim = ctx.x_range ∧
        (stillFor ctx y).ylim = ctx.y_range ∧
        (∀ cv ∈ (stillFor ctx y).curves,
          cv.color = (ctx.color_map.lookup cv.country).getD "") ∧
        (stillFor ctx y).legend.Nodup ∧
        (∀ c : String, c ∈ (stillFor ctx y).legend ↔
          c ∈ (stillFor ctx y).curves.map CountryTrace.country)) ∧
    (∀ (t : List Row) (sel : List String) (fig : Figure)
      (ctx : AnimationContext), build_figure t sel = (fig, some ctx) →
        List.Sorted (fun a b => a < b) ctx.years) := by
  constructor
  · intro ctx h
    refine ⟨figure_to_gif_ok ctx h, List.length_map _ _, ?_⟩
    intro y _
    refine ⟨rfl, rfl, rfl, ?_, firstKeys_nodup _, fun c => mem_firstKeys _ c⟩
    intro cv hcv
    exact (mem_frameTraces_shape hcv).2.1
  · intro t sel fig ctx hb
    obtain ⟨-, hctx, -⟩ := build_figure_some t sel fig ctx hb
    rw [hctx]
    exact yearsOf_sorted _

/-- C8 witness: a three-year context yields a GIF of exactly three stills. -/
theorem c8_exporter_renders_stills_witness :
    figure_to_gif exportCtx3 =
      Except.ok { stills := exportCtx3.years.map (stillFor exportCtx3),
                  duration := 250, loopCount := 0 } ∧
    (exportCtx3.years.map (stillFor exportCtx3)).length = 3 :=
  ⟨(c8_exporter_renders_stills.1 exportCtx3 (by decide)).1, by decide⟩

/-- C3 counterexample: on a table holding a single observation with a
negative coal percentage, the computed x-axis lower bound `min · 0.95`
lies strictly above the actual minimum, refuting "computed minimum ≤
actual data minimum" as universally stated. -/
theorem c3_counterexample :
    ¬ (((build_figure negRowTable []).2.getD emptyContext).x_range.1 ≤
        seriesMin Row.coal (dedupFiltered (filterSelected [] negRowTable))) := by
  show ¬ ((-1 : ℚ) * 0.95 ≤ -1)
  norm_num

/-- C3 (amended): for every build that yields a context, the axis ranges
are exactly (min x · 0.95, max x · 1.05) and (min y · 0.95, max y · 1.05)
over the deduplicated filtered table; and when all data values are
nonnegative — as coal percentages and consumption values are — the
computed bounds do pad the data by 5% on each side:
computed min ≤ actual min and actual max ≤ computed max. -/
theorem c3_axis_ranges (t : List Row) (sel : List String) (fig : Figure)
    (ctx : AnimationContext) (hb : build_figure t sel = (fig, some ctx))
    (hx : ∀ r ∈ dedupFiltered (filterSelected sel t), 0 ≤ r.coal)
    (hy : ∀ r ∈ dedupFiltered (filterSelected sel t), 0 ≤ r.elec) :
    ctx.x_range =
      (seriesMin Row.coal (dedupFiltered (filterSelected sel t)) * 0.95,
       seriesMax Row.coal (dedupFiltered (filterSelected sel t)) * 1.05) ∧
    ctx.y_range =
      (seriesMin Row.elec (dedupFiltered (filterSelected sel t)) * 0.95,
       seriesMax Row.elec (dedupFiltered (filterSelected sel t)) * 1.05) ∧
    ctx.x_range.1 ≤ seriesMin Row.coal (dedupFiltered (filterSelected sel t)) ∧
    seriesMax Row.coal (dedupFiltered (filterSelected sel t)) ≤ ctx.x_range.2 ∧
    ctx.y_range.1 ≤ seriesMin Row.elec (dedupFiltered (filterSelected sel t)) ∧
    seriesMax Row.elec (dedupFiltered (filterSelected sel t)) ≤ ctx.y_range.2 := by
  obtain ⟨-, hctx, -⟩ := build_figure_some t sel fig ctx hb
  subst hctx
  refine ⟨rfl, rfl, ?_, ?_, ?_, ?_⟩
  · exact mul_le_of_le_one_right (seriesMin_nonneg hx) (by norm_num)
  · exact le_mul_of_one_le_right (seriesMax_nonneg hx) (by norm_num)
  · exact mul_le_of_le_one_right (seriesMin_nonneg hy) (by norm_num)
  · exact le_mul_of_one_le_right (seriesMax_nonneg hy) (by norm_num)

/-- C3 witness: on the (nonnegative) scenario table the context built by
`build_figure` pads both axes outward. -/
theorem c3_axis_ranges_witness :
    ((build_figure scenarioRows []).2.getD emptyContext).x_range.1 ≤
      seriesMin Row.coal (dedupFiltered (filterSelected [] scenarioRows)) ∧
    seriesMax Row.coal (dedupFiltered (filterSelected [] scenarioRows)) ≤
      ((build_figure scenarioRows []).2.getD emptyContext).x_range.2 := by
  have hs : ((build_figure scenarioRows []).2).isSome = true := by decide
  obtain ⟨ctx, hctx⟩ := Option.isSome_iff_exists.mp hs
  rw [hctx, Option.getD_some]
  have hb : build_figure scenarioRows [] =
      ((build_figure scenarioRows []).1, some ctx) := by
    rw [← hctx]
  have h := c3_axis_ranges scenarioRows [] (build_figure scenarioRows []).1
    ctx hb (by decide) (by decide)
  exact ⟨h.2.2.1, h.2.2.2.1⟩

/-- C4: the year timeline of every build is strictly ascending (and the
frame sequence is indexed by exactly that timeline), and cumulative
histories grow monotonically: for Y1 < Y2 the history drawn at Y1 is a
sublist (hence a subset) of the history drawn at Y2, so a country visible
in some frame stays visible in every later frame. -/
theorem c4_frames_ascending_monotone (t : List Row) (sel : List String) :
    List.Sorted (fun a b => a < b)
      (yearsOf (dedupFiltered (filterSelected sel t))) ∧
    (∀ (fig : Figure) (ctx : AnimationContext),
      build_figure t sel = (fig, some ctx) →
        fig.frames.map Prod.fst =
          yearsOf (dedupFiltered (filterSelected sel t)) ∧
        ctx.years = yearsOf (dedupFiltered (filterSelected sel t))) ∧
    ∀ (c : String) (y₁ y₂ : Int), y₁ < y₂ →
      List.Sublist (historyUpTo (dedupFiltered (filterSelected sel t)) c y₁)
        (historyUpTo (dedupFiltered (filterSelected sel t)) c y₂) ∧
      (historyUpTo (dedupFiltered (filterSelected sel t)) c y₁ ≠ [] →
        historyUpTo (dedupFiltered (filterSelected sel t)) c y₂ ≠ []) := by
  refine ⟨yearsOf_sorted _, ?_, ?_⟩
  · intro fig ctx hb
    obtain ⟨-, hctx, hfr⟩ := build_figure_some t sel fig ctx hb
    constructor
    · rw [hfr, List.map_map]
      exact List.map_id _
    · rw [hctx]
  · intro c y₁ y₂ hy
    have hsub : List.Sublist
        (historyUpTo (dedupFiltered (filterSelected sel t)) c y₁)
        (historyUpTo (dedupFiltered (filterSelected sel t)) c y₂) := by
      unfold historyUpTo
      refine List.monotone_filter_right _ ?_
      intro r hr
      simp only [decide_eq_true_eq] at hr ⊢
      omega
    refine ⟨hsub, ?_⟩
    intro h1 h2
    exact h1 (List.sublist_nil.mp (h2 ▸ hsub))

/-- C4 witness: on the scenario table the years are strictly ascending and
the history of country "A" at 2000 is a sublist of its history at 2001. -/
theorem c4_frames_ascending_monotone_witness :
    List.Sorted (fun a b => a < b)
      (yearsOf (dedupFiltered (filterSelected [] scenarioRows))) ∧
    List.Sublist (historyUpTo (dedupFiltered (filterSelected [] scenarioRows)) "A" 2000)
      (historyUpTo (dedupFiltered (filterSelected [] scenarioRows)) "A" 2001) :=
  ⟨(c4_frames_ascending_monotone scenarioRows []).1,
   ((c4_frames_ascending_monotone scenarioRows []).2.2 "A" 2000 2001
     (by decide)).1⟩

/-- C10: every context that `build_figure` actually hands to the caller has
a non-empty timeline and a non-empty per-country table for each of its
countries, so the zero-years error branch of `figure_to_gif` is
unreachable on such contexts and the `frames[0]` access is safe: the
export succeeds with a non-empty still list. -/
theorem c10_built_context_safe (t : List Row) (sel : List String)
    (ctx : AnimationContext) (hb : (build_figure t sel).2 = some ctx) :
    ctx.years ≠ [] ∧
    (∀ c ∈ ctx.unique_countries,
      (ctx.country_data_map.lookup c).getD [] ≠ []) ∧
    figure_to_gif ctx =
      Except.ok { stills := ctx.years.map (stillFor ctx),
                  duration := 250, loopCount := 0 } ∧
    ctx.years.map (stillFor ctx) ≠ [] := by
  have hb' : build_figure t sel = ((build_figure t sel).1, some ctx) := by
    rw [← hb]
  obtain ⟨he, hctx, -⟩ := build_figure_some t sel (build_figure t sel).1 ctx hb'
  have hfne : filterSelected sel t ≠ [] := by
    intro hnil
    rw [hnil] at he
    cases he
  have hsne : sort_values (filterSelected sel t) ≠ [] := by
    intro hnil
    have hp := perm_sort_values (filterSelected sel t)
    rw [hnil] at hp
    exact hfne (List.Perm.eq_nil hp.symm)
  have hdne : dedupFiltered (filterSelected sel t) ≠ [] :=
    drop_duplicates_ne_nil hsne
  have hyne : yearsOf (dedupFiltered (filterSelected sel t)) ≠ [] := by
    intro hnil
    unfold yearsOf sortInts at hnil
    have hp := List.perm_insertionSort (fun a b : Int => a ≤ b)
      ((dedupFiltered (filterSelected sel t)).map Row.year).dedup
    rw [hnil] at hp
    have hd := List.Perm.eq_nil hp.symm
    exact hdne (List.map_eq_nil.mp ((List.dedup_eq_nil _).mp hd))
  have hyears : ctx.years ≠ [] := by
    rw [hctx]
    exact hyne
  refine ⟨hyears, ?_, figure_to_gif_ok ctx hyears, ?_⟩
  · intro c hcu
    rw [hctx] at hcu ⊢
    have hlk := lookup_map_pair (uniqueCountries (filterSelected sel t))
      (fun c => (dedupFiltered (filterSelected sel t)).filter
        (fun r => r.country == c)) c hcu
    unfold countryDataMap
    rw [hlk, Option.getD_some]
    have hcm : c ∈ ((filterSelected sel t).map Row.country).dedup := by
      have := hcu
      unfold uniqueCountries sortStrings at this
      rwa [List.mem_insertionSort] at this
    obtain ⟨r, hr, hrc⟩ := List.mem_map.mp ((List.mem_dedup).mp hcm)
    have hrs : r ∈ sort_values (filterSelected sel t) :=
      ((perm_sort_values _).mem_iff).mpr hr
    obtain ⟨s, hs, hks⟩ :=
      mem_drop_duplicates_of_mem (sort_values (filterSelected sel t)) r hrs
    have hsc : s.country = c := ((keyEq_iff.mp hks).1).symm.trans hrc
    refine List.ne_nil_of_mem (List.mem_filter.mpr ⟨hs, ?_⟩)
    simpa using hsc
  · intro hnil
    exact hyears (List.map_eq_nil.mp hnil)

/-- C10 witness: the context built for the scenario table has a non-empty
timeline and a successful non-empty export. -/
theorem c10_built_context_safe_witness :
    ((build_figure scenarioRows []).2.getD emptyContext).years ≠ [] ∧
    figure_to_gif ((build_figure scenarioRows []).2.getD emptyContext) =
      Except.ok
        { stills := ((build_figure scenarioRows []).2.getD emptyContext).years.map
            (stillFor ((build_figure scenarioRows []).2.getD emptyContext)),
          duration := 250, loopCount := 0 } ∧
    ((build_figure scenarioRows []).2.getD emptyContext).years.map
        (stillFor ((build_figure scenarioRows []).2.getD emptyContext)) ≠ [] := by
  have hs : ((build_figure scenarioRows []).2).isSome = true := by decide
  obtain ⟨ctx, hctx⟩ := Option.isSome_iff_exists.mp hs
  rw [hctx, Option.getD_some]
  obtain ⟨h1, -, h3, h4⟩ := c10_built_context_safe scenarioRows [] ctx hctx
  exact ⟨h1, h3, h4⟩

theorem countryDataMap_lookup (d : List Row) (cs : List String) (c : String)
    (hc : c ∈ cs) :
    (countryDataMap d cs).lookup c =
      some (d.filter (fun r => r.country == c)) :=
  lookup_map_pair cs _ c hc

/-- C1: a frame for year Y contains one entry exactly for each country of
the deterministic (sorted, distinct) country list whose observations up to
Y are non-empty; that entry carries the ordered history of all of the
observations of the country with year ≤ Y together with a current point that
lies in the history and has its maximum year; the frame sequence of the
built figure is indexed by the ascending year list; and on the concrete
scenario table the two frames are exactly as the specification lists
them. -/
theorem c1_cumulative_frames :
    (∀ (t : List Row) (sel : List String) (y : Int),
      (∀ c : String,
        (∃ tr ∈ frameTraces
            (countryDataMap (dedupFiltered (filterSelected sel t))
              (uniqueCountries (filterSelected sel t)))
            (buildColorMap (uniqueCountries (filterSelected sel t)) 0)
            (uniqueCountries (filterSelected sel t)) y,
          tr.country = c) ↔
        (c ∈ uniqueCountries (filterSelected sel t) ∧
          historyUpTo (dedupFiltered (filterSelected sel t)) c y ≠ [])) ∧
      (∀ tr ∈ frameTraces
          (countryDataMap (dedupFiltered (filterSelected sel t))
            (uniqueCountries (filterSelected sel t)))
          (buildColorMap (uniqueCountries (filterSelected sel t)) 0)
          (uniqueCountries (filterSelected sel t)) y,
        tr.history =
          historyUpTo (dedupFiltered (filterSelected sel t)) tr.country y ∧
        tr.current ∈ tr.history ∧
        ∀ r ∈ tr.history, r.year ≤ tr.current.year)) ∧
    (∀ (t : List Row) (sel : List String) (fig : Figure)
      (ctx : AnimationContext), build_figure t sel = (fig, some ctx) →
        fig.frames =
          (yearsOf (dedupFiltered (filterSelected sel t))).map (fun y =>
            (y, frameTraces
              (countryDataMap (dedupFiltered (filterSelected sel t))
                (uniqueCountries (filterSelected sel t)))
              (buildColorMap (uniqueCountries (filterSelected sel t)) 0)
              (uniqueCountries (filterSelected sel t)) y))) ∧
    (build_figure scenarioRows []).1.frames =
      [(2000,
        [{ country := "A", color := "rgb(136,204,238)",
           history := [{ country := "A", year := 2000, coal := 10, elec := 100 }],
           current := { country := "A", year := 2000, coal := 10, elec := 100 } },
         { country := "B", color := "rgb(204,102,119)",
           history := [{ country := "B", year := 2000, coal := 5, elec := 50 }],
           current := { country := "B", year := 2000, coal := 5, elec := 50 } }]),
       (2001,
        [{ country := "A", color := "rgb(136,204,238)",
           history := [{ country := "A", year := 2000, coal := 10, elec := 100 },
                       { country := "A", year := 2001, coal := 20, elec := 200 }],
           current := { country := "A", year := 2001, coal := 20, elec := 200 } },
         { country := "B", color := "rgb(204,102,119)",
           history := [{ country := "B", year := 2000, coal := 5, elec := 50 }],
           current := { country := "B", year := 2000, coal := 5, elec := 50 } }])] := by
  refine ⟨?_, ?_, by decide⟩
  · intro t sel y
    constructor
    · intro c
      constructor
      · rintro ⟨tr, htr, rfl⟩
        obtain ⟨hcu, -, hh, hL⟩ := mem_frameTraces_shape htr
        rw [countryDataMap_lookup _ _ _ hcu, Option.getD_some] at hh
        refine ⟨hcu, ?_⟩
        intro hnil
        unfold historyUpTo at hnil
        rw [← hh] at hnil
        exact (List.ne_nil_of_mem (List.mem_of_mem_getLast? hL)) hnil
      · rintro ⟨hcu, hne⟩
        refine frameTraces_exists hcu ?_
        rw [countryDataMap_lookup _ _ _ hcu, Option.getD_some]
        unfold historyUpTo at hne
        exact hne
    · intro tr htr
      obtain ⟨hcu, -, hh, hL⟩ := mem_frameTraces_shape htr
      rw [countryDataMap_lookup _ _ _ hcu, Option.getD_some] at hh
      have hhist : tr.history =
          historyUpTo (dedupFiltered (filterSelected sel t)) tr.country y := hh
      refine ⟨hhist, List.mem_of_mem_getLast? hL, ?_⟩
      intro r hr
      have hpw : tr.history.Pairwise (fun a b => a.year < b.year) := by
        rw [hhist]
        exact historyUpTo_year_pairwise _ _ _
      exact getLast?_year_max tr.history hpw tr.current hL r hr
  · intro t sel fig ctx hb
    exact (build_figure_some t sel fig ctx hb).2.2

/-- C1 witness: the entry of country "A" in the scenario frame of year 2000
carries exactly its history up to 2000, and its current point lies in that
history. -/
theorem c1_cumulative_frames_witness :
    scenarioTrace.history =
      historyUpTo (dedupFiltered (filterSelected [] scenarioRows))
        scenarioTrace.country 2000 ∧
    scenarioTrace.current ∈ scenarioTrace.history := by
  have h := (c1_cumulative_frames.1 scenarioRows [] 2000).2 scenarioTrace
    (by decide)
  exact ⟨h.1, h.2.1⟩
